import Mathlib

/-!
Verification of the SentinelDesk password-vault core: the authenticated
encryption layer, the integrity ledger ("mock blockchain"), and the vault
orchestrator (save/load/add/update/delete), shallowly embedded from
`src/unnamed/part_010` (vault module) and
`src/lib/backend/modules/blockchain.ts`.

Machine strings are Lean `String`s; JavaScript string primitives
(`slice`, `length`, `startsWith`, number interpolation) are modelled by
explicit list-based functions below.  The cryptographic primitives
(PBKDF2, AES-256-GCM, SHA-256) are external to the repository: PBKDF2 and
the AEAD cipher are modelled by an `AEAD` structure whose fields state the
standard contracts the code relies on (round-trip, tag authentication,
key-derivation collision freedom), and SHA-256 is a function parameter
`H : String → String` (injectivity, i.e. collision freedom, is assumed
only where a theorem needs it).  A concrete instance `idealAEAD` shows the
structure is inhabited and lets witnesses evaluate everything.
-/

/-- JS `s.length` (UTF-16 code units modelled as chars). -/
def jsLen (s : String) : Nat := s.data.length

/-- JS `s.slice(0, n)` for `n ≥ 0`. -/
def jsTake (s : String) (n : Nat) : String := String.mk (s.data.take n)

/-- JS `s.slice(n)` for `n ≥ 0`. -/
def jsDrop (s : String) (n : Nat) : String := String.mk (s.data.drop n)

/-- Prefix test on char lists: `listIsPref p s` iff `p` is a prefix of `s`. -/
def listIsPref : List Char → List Char → Bool
  | [], _ => true
  | _ :: _, [] => false
  | c :: cs, d :: ds => c = d && listIsPref cs ds

/-- JS `s.startsWith(pre)`. -/
def jsStartsWith (s pre : String) : Bool := listIsPref pre.data s.data

theorem data_append (a b : String) : (a ++ b).data = a.data ++ b.data := rfl

theorem jsLen_append (a b : String) : jsLen (a ++ b) = jsLen a + jsLen b := by
  simp [jsLen, data_append]

theorem jsTake_len_append (a b : String) : jsTake (a ++ b) (jsLen a) = a := by
  show String.mk ((a.data ++ b.data).take a.data.length) = a
  rw [List.take_left]

theorem jsDrop_len_append (a b : String) : jsDrop (a ++ b) (jsLen a) = b := by
  show String.mk ((a.data ++ b.data).drop a.data.length) = b
  rw [List.drop_left]

theorem string_data_inj {a b : String} (h : a.data = b.data) : a = b :=
  congrArg String.mk h

/-! ### Decimal rendering of numbers (model of JS number-to-string) -/

/-- Fuel-based decimal digit list of `n` (most significant first). -/
def natDigsAux : Nat → Nat → List Char
  | 0, _ => []
  | f + 1, n =>
    if n < 10 then [Nat.digitChar n]
    else natDigsAux f (n / 10) ++ [Nat.digitChar (n % 10)]

/-- Decimal string of a number, as JS template interpolation produces. -/
def natStr (n : Nat) : String := String.mk (natDigsAux (n + 1) n)

theorem natDigsAux_ne_nil {f n : Nat} (h : n < f) : natDigsAux f n ≠ [] := by
  cases f with
  | zero => omega
  | succ f =>
    by_cases h10 : n < 10 <;> simp [natDigsAux, h10]

theorem natDigsAux_fuel : ∀ n f g, n < f → n < g → natDigsAux f n = natDigsAux g n := by
  intro n
  induction n using Nat.strong_induction_on with
  | _ n ih =>
    intro f g hf hg
    cases f with
    | zero => omega
    | succ f =>
      cases g with
      | zero => omega
      | succ g =>
        by_cases h10 : n < 10
        · simp [natDigsAux, h10]
        · have hdivlt : n / 10 < n := Nat.div_lt_self (by omega) (by omega)
          simp only [natDigsAux, h10, if_false]
          rw [ih (n / 10) hdivlt f g (by omega) (by omega)]

theorem digitChar_inj {a b : Nat} (ha : a < 10) (hb : b < 10)
    (h : Nat.digitChar a = Nat.digitChar b) : a = b := by
  have key : ∀ x y : Fin 10, Nat.digitChar x.val = Nat.digitChar y.val → x = y := by decide
  have := key ⟨a, ha⟩ ⟨b, hb⟩ h
  exact congrArg Fin.val this

theorem natDigsAux_inj : ∀ n m, natDigsAux (n + 1) n = natDigsAux (m + 1) m → n = m := by
  intro n
  induction n using Nat.strong_induction_on with
  | _ n ih =>
    intro m h
    by_cases hn : n < 10 <;> by_cases hm : m < 10
    · simp only [natDigsAux, hn, hm, if_true] at h
      simp only [List.cons.injEq, and_true] at h
      exact digitChar_inj hn hm h
    · exfalso
      simp only [natDigsAux, hn, hm, if_true, if_false] at h
      have hdm : m / 10 < m := Nat.div_lt_self (by omega) (by omega)
      have hne : natDigsAux m (m / 10) ≠ [] := natDigsAux_ne_nil hdm
      cases hcase : natDigsAux m (m / 10) with
      | nil => exact hne hcase
      | cons x xs =>
        rw [hcase] at h
        have := congrArg List.length h
        simp at this
    · exfalso
      simp only [natDigsAux, hn, hm, if_true, if_false] at h
      have hdn : n / 10 < n := Nat.div_lt_self (by omega) (by omega)
      have hne : natDigsAux n (n / 10) ≠ [] := natDigsAux_ne_nil hdn
      cases hcase : natDigsAux n (n / 10) with
      | nil => exact hne hcase
      | cons x xs =>
        rw [hcase] at h
        have := congrArg List.length h
        simp at this
    · simp only [natDigsAux, hn, hm, if_false] at h
      have hrev := congrArg List.reverse h
      simp only [List.reverse_append, List.reverse_cons, List.reverse_nil,
        List.nil_append, List.cons_append, List.cons.injEq] at hrev
      obtain ⟨hhead, htail⟩ := hrev
      have htail' : natDigsAux n (n / 10) = natDigsAux m (m / 10) :=
        List.reverse_injective htail
      have hdn : n / 10 < n := Nat.div_lt_self (by omega) (by omega)
      have hdm : m / 10 < m := Nat.div_lt_self (by omega) (by omega)
      have hfix : natDigsAux (n / 10 + 1) (n / 10) = natDigsAux (m / 10 + 1) (m / 10) := by
        rw [natDigsAux_fuel (n / 10) (n / 10 + 1) n (by omega) (by omega), htail',
          natDigsAux_fuel (m / 10) m (m / 10 + 1) (by omega) (by omega)]
      have hdiv : n / 10 = m / 10 := ih (n / 10) hdn (m / 10) hfix
      have hmod : n % 10 = m % 10 :=
        digitChar_inj (Nat.mod_lt _ (by omega)) (Nat.mod_lt _ (by omega)) hhead
      omega

theorem natStr_inj {n m : Nat} (h : natStr n = natStr m) : n = m :=
  natDigsAux_inj n m (congrArg String.data h)

/-! ### Authenticated encryption layer (`src/unnamed/part_010`, lines 29-99)

`AEAD` packages the external crypto primitives with the contracts the
vault code relies on: PBKDF2 is deterministic and collision-free in the
passphrase for a fixed salt; AES-256-GCM encrypt/decrypt round-trips
under the right key; the 16-byte auth tag renders as 32 hex chars; and
decryption under a wrong key fails the tag check. -/

structure AEAD where
  pbkdf2 : String → String → String
  aeadEnc : String → String → String → String × String
  aeadDec : String → String → String → String → Option String
  tagLen : ∀ k iv m, jsLen (aeadEnc k iv m).2 = 32
  encDec : ∀ k iv m, aeadDec k iv (aeadEnc k iv m).1 (aeadEnc k iv m).2 = some m
  wrongKey : ∀ k k' iv m, k ≠ k' →
    aeadDec k' iv (aeadEnc k iv m).1 (aeadEnc k iv m).2 = none
  kdfInj : ∀ p p' s, pbkdf2 p s = pbkdf2 p' s → p = p'

/-- Self-delimiting escape of a key: each char `c` becomes `'1', c`. -/
def escList : List Char → List Char
  | [] => []
  | c :: l => '1' :: c :: escList l

/-- Inverse of `escList _ ++ '0' :: _`: reads escaped chars until the `'0'` marker. -/
def escDec : List Char → Option (List Char × List Char)
  | '0' :: rest => some ([], rest)
  | '1' :: c :: rest => (escDec rest).map (fun p => (c :: p.1, p.2))
  | _ => none

theorem escDec_escList : ∀ k m : List Char, escDec (escList k ++ '0' :: m) = some (k, m)
  | [], _ => rfl
  | c :: k, m => by
    have ih := escDec_escList k m
    show escDec ('1' :: c :: (escList k ++ '0' :: m)) = some (c :: k, m)
    simp [escDec, ih]

/-- A concrete ideal AEAD instance: the key is embedded self-delimitingly in
the ciphertext and checked on decryption; the tag is a constant 32-char
string.  It satisfies every contract in `AEAD`, showing the assumptions
are consistent and giving witnesses something to evaluate. -/
def idealAEAD : AEAD where
  pbkdf2 := fun p _ => p
  aeadEnc := fun k _ m => (String.mk (escList k.data ++ '0' :: m.data),
    String.mk (List.replicate 32 '0'))
  aeadDec := fun k' _ c _ =>
    match escDec c.data with
    | some p => if p.1 = k'.data then some (String.mk p.2) else none
    | none => none
  tagLen := by intro k iv m; simp [jsLen]
  encDec := by
    intro k iv m
    simp only [escDec_escList]
    simp
  wrongKey := by
    intro k k' iv m hne
    simp only [escDec_escList]
    have : ¬ k.data = k'.data := fun h => hne (string_data_inj h)
    simp [this]
  kdfInj := by intro p p' s h; exact h

/-! ### Encrypt / decrypt (`encryptData`, `decryptData`) -/

/-- `EncryptedVault` (part_010 lines 22-27): `data` is ciphertext hex with
the 32-hex-char auth tag appended, `iv` and `salt` are hex strings. -/
structure EncryptedVault where
  data : String
  iv : String
  salt : String
  version : Nat
deriving DecidableEq

/-- `encryptData` (part_010 lines 45-70).  The random salt and iv drawn
inside the function are explicit arguments here. -/
def encryptData (A : AEAD) (salt iv : String) (data masterPassword : String) :
    EncryptedVault :=
  let key := A.pbkdf2 masterPassword salt
  let ct := A.aeadEnc key iv data
  { data := ct.1 ++ ct.2, iv := iv, salt := salt, version := 1 }

/-- `decryptData` (part_010 lines 75-99).  The auth tag is split off as the
last `AUTH_TAG_LENGTH * 2 = 32` chars of `data`; any failure (the source
catches every error and throws `Decryption failed: Invalid master password
or corrupted data`) is `none`. -/
def decryptData (A : AEAD) (encrypted : EncryptedVault) (masterPassword : String) :
    Option String :=
  let key := A.pbkdf2 masterPassword encrypted.salt
  let n := jsLen encrypted.data - 32
  A.aeadDec key encrypted.iv (jsTake encrypted.data n) (jsDrop encrypted.data n)

theorem decryptData_encryptData (A : AEAD) (salt iv s p : String) :
    decryptData A (encryptData A salt iv s p) p = some s := by
  unfold decryptData encryptData
  have h32 := A.tagLen (A.pbkdf2 p salt) iv s
  have hn : jsLen ((A.aeadEnc (A.pbkdf2 p salt) iv s).1 ++
      (A.aeadEnc (A.pbkdf2 p salt) iv s).2) - 32 =
      jsLen (A.aeadEnc (A.pbkdf2 p salt) iv s).1 := by
    rw [jsLen_append, h32]
    omega
  simp only [hn, jsTake_len_append, jsDrop_len_append]
  exact A.encDec _ _ _

/-- C2: for every passphrase of at least 8 characters and every plaintext
string, decrypting an encryption of it under the same passphrase returns
the plaintext unchanged. -/
theorem decrypt_encrypt_roundtrip (A : AEAD) (salt iv s p : String)
    (hp : 8 ≤ jsLen p) :
    decryptData A (encryptData A salt iv s p) p = some s :=
  decryptData_encryptData A salt iv s p

/-- Witness for C2 at a concrete passphrase and plaintext. -/
theorem decrypt_encrypt_roundtrip_witness :
    8 ≤ jsLen "aaaaaaaa" ∧
    decryptData idealAEAD (encryptData idealAEAD "s" "i" "hi" "aaaaaaaa") "aaaaaaaa" =
      some "hi" :=
  ⟨by decide, decrypt_encrypt_roundtrip idealAEAD "s" "i" "hi" "aaaaaaaa" (by decide)⟩

/-! ### Integrity ledger (`src/lib/backend/modules/blockchain.ts`)

SHA-256 (`calculateHash`) is modelled by a function parameter
`H : String → String`.  The proof-of-work loop of `mineBlock` is
unbounded in the source; here it takes fuel, with `none` meaning the
search did not finish within the fuel. -/

structure Block where
  index : Nat
  timestamp : String
  dataHash : String
  previousHash : String
  nonce : Nat
  hash : String
deriving DecidableEq

structure Blockchain where
  chain : List Block
  difficulty : Nat
deriving DecidableEq

/-- The concatenation hashed by `calculateBlockHash` (blockchain.ts line 38):
`${index}${timestamp}${dataHash}${previousHash}${nonce}`. -/
def blockString (index : Nat) (timestamp dataHash previousHash : String) (nonce : Nat) :
    String :=
  natStr index ++ timestamp ++ dataHash ++ previousHash ++ natStr nonce

/-- `calculateBlockHash` (blockchain.ts lines 37-40). -/
def calculateBlockHash (H : String → String) (index : Nat)
    (timestamp dataHash previousHash : String) (nonce : Nat) : String :=
  H (blockString index timestamp dataHash previousHash nonce)

/-- `'0'.repeat(difficulty)`, the proof-of-work target. -/
def zerosTarget (difficulty : Nat) : String := String.mk (List.replicate difficulty '0')

/-- The `while (!hash.startsWith(target))` search of `mineBlock`
(blockchain.ts lines 45-57), with explicit fuel. -/
def mineAux (H : String → String) (target : String) (index : Nat)
    (timestamp dataHash previousHash : String) :
    Nat → Nat → String → Option (Nat × String)
  | fuel, nonce, hash =>
    if jsStartsWith hash target then some (nonce, hash)
    else
      match fuel with
      | 0 => none
      | f + 1 =>
        mineAux H target index timestamp dataHash previousHash f (nonce + 1)
          (calculateBlockHash H index timestamp dataHash previousHash (nonce + 1))

/-- `mineBlock` (blockchain.ts lines 45-57). -/
def mineBlock (H : String → String) (difficulty fuel : Nat) (index : Nat)
    (timestamp dataHash previousHash : String) : Option Block :=
  (mineAux H (zerosTarget difficulty) index timestamp dataHash previousHash fuel 0 "").map
    (fun p => { index := index, timestamp := timestamp, dataHash := dataHash,
                previousHash := previousHash, nonce := p.1, hash := p.2 })

/-- `createGenesisBlock` (blockchain.ts lines 62-75); `now` is the
timestamp drawn inside the function. -/
def createGenesisBlock (H : String → String) (now : String) : Block :=
  { index := 0, timestamp := now, dataHash := "Genesis Block", previousHash := "0",
    nonce := 0, hash := calculateBlockHash H 0 now "Genesis Block" "0" 0 }

/-- `findBlockByDataHash` (blockchain.ts lines 235-239). -/
def findBlockByDataHash (bc : Blockchain) (dataHash : String) : Option Block :=
  bc.chain.find? (fun block => block.dataHash = dataHash)

/-- The `for (let i = 1; ...)` body of `verifyBlockchain` (blockchain.ts
lines 197-227): self-hash check, chain-link check, proof-of-work check
for every block after the genesis block. -/
def verifyFrom (H : String → String) (difficulty : Nat) : Block → List Block → Bool
  | _, [] => true
  | prev, b :: rest =>
    (b.hash = calculateBlockHash H b.index b.timestamp b.dataHash b.previousHash b.nonce :
      Bool)
    && (b.previousHash = prev.hash : Bool)
    && jsStartsWith b.hash (zerosTarget difficulty)
    && verifyFrom H difficulty b rest

/-- `verifyBlockchain` (blockchain.ts lines 185-230).  Note the genesis
block is only checked for `previousHash === '0'`; its own hash, fields
and proof-of-work are never re-validated. -/
def verifyBlockchain (H : String → String) (bc : Blockchain) : Bool :=
  match bc.chain with
  | [] => false
  | g :: rest => (g.previousHash = "0" : Bool) && verifyFrom H bc.difficulty g rest

/-! ### Persistence rows (`saveVaultToSupabase` / `loadVaultFromSupabase`,
part_010 lines 104-160).  The `vault_data` row for the owner; `user_id`
and `updated_at` are not read back and are omitted. -/

structure VaultRow where
  encrypted_data : String
  iv : String
  auth_tag : String
  blockchain_hash : String
deriving DecidableEq

/-- The row written by `saveVaultToSupabase` (part_010 lines 104-132): the
auth tag is split off as the last 32 hex chars of `data`, and the salt is
stored in the `blockchain_hash` column. -/
def saveVaultToSupabase (encrypted : EncryptedVault) : VaultRow :=
  { encrypted_data := jsTake encrypted.data (jsLen encrypted.data - 32),
    iv := encrypted.iv,
    auth_tag := jsDrop encrypted.data (jsLen encrypted.data - 32),
    blockchain_hash := encrypted.salt }

/-- `loadVaultFromSupabase` (part_010 lines 137-160): reconstructs the
`EncryptedVault` from the row, re-attaching the auth tag and recovering
the salt from `blockchain_hash`; `none` when no row exists. -/
def loadVaultFromSupabase (row : Option VaultRow) : Option EncryptedVault :=
  row.map (fun r =>
    { data := r.encrypted_data ++ r.auth_tag, iv := r.iv, salt := r.blockchain_hash,
      version := 1 })

/-- The per-owner persistent and in-memory state the vault operations act
on: the `vault_data` row, the module-global in-memory chain (assumed
initialized, as after `initializeBlockchain`), and the durably persisted
copy of the chain (`blockchain_data.blocks`). -/
structure VaultState where
  row : Option VaultRow
  chain : Blockchain
  durableChain : Option Blockchain
deriving DecidableEq

/-- `addBlock` (blockchain.ts lines 159-180) plus the `saveBlockchain`
call it makes: `Except.error` models the `TypeError` thrown when the
in-memory chain is empty (`getLatestBlock` yields no block); `none`
models a proof-of-work search that exceeds the fuel.  `ledgerOk` is the
outcome of the chain upsert, whose error `saveBlockchain` swallows
(lines 137-142): on failure the durable chain is simply left unchanged. -/
def addBlock (H : String → String) (fuel : Nat) (ledgerOk : Bool) (now : String)
    (st : VaultState) (dataHash : String) : Option (Except String (Block × VaultState)) :=
  match st.chain.chain.getLast? with
  | none => some (Except.error "Blockchain not initialized")
  | some prev =>
    match mineBlock H st.chain.difficulty fuel (prev.index + 1) now dataHash prev.hash with
    | none => none
    | some nb =>
      let newChain : Blockchain :=
        { chain := st.chain.chain ++ [nb], difficulty := st.chain.difficulty }
      some (Except.ok (nb,
        { st with chain := newChain,
                  durableChain := if ledgerOk then some newChain else st.durableChain }))

structure ProofResult where
  success : Bool
  block : Option Block
  message : String
deriving DecidableEq

/-- `storeVaultProof` (blockchain.ts lines 247-283): hash the vault data,
return the existing block unchanged if one already carries this hash,
otherwise mine and append a new block; any error thrown underneath is
caught and reported as `success := false`. -/
def storeVaultProof (H : String → String) (fuel : Nat) (ledgerOk : Bool) (now : String)
    (st : VaultState) (vaultData : String) : Option (ProofResult × VaultState) :=
  let dataHash := H vaultData
  match findBlockByDataHash st.chain dataHash with
  | some existingBlock =>
    some ({ success := true, block := some existingBlock,
            message := "Proof already exists at block " ++ natStr existingBlock.index },
          st)
  | none =>
    match addBlock H fuel ledgerOk now st dataHash with
    | none => none
    | some (Except.error e) =>
      some ({ success := false, block := none, message := "Failed to store proof: " ++ e },
            st)
    | some (Except.ok (b, st')) =>
      some ({ success := true, block := some b,
              message := "Proof stored successfully at block " ++ natStr b.index },
            st')

structure VerifyResult where
  verified : Bool
  block : Option Block
  message : String
  chainValid : Bool
deriving DecidableEq

/-- `verifyVaultProof` (blockchain.ts lines 291-347): validates the whole
chain first and short-circuits when it is invalid; only on a valid chain
does it look the data hash up. -/
def verifyVaultProof (H : String → String) (bc : Blockchain) (vaultData : String) :
    VerifyResult :=
  if verifyBlockchain H bc then
    match findBlockByDataHash bc (H vaultData) with
    | none =>
      { verified := false, block := none, message := "No proof found in blockchain",
        chainValid := true }
    | some b =>
      { verified := true, block := some b,
        message := "Proof verified at block " ++ natStr b.index, chainValid := true }
  else
    { verified := false, block := none, message := "Blockchain integrity compromised",
      chainValid := false }

/-! ### Vault orchestrator (`src/unnamed/part_010`, lines 165-471)

Randomness (`salt`, `iv`, `randomUUID`), timestamps (`now`), the outcome
of the `vault_data` upsert (`blobOk`) and of the `blockchain_data`
upsert (`ledgerOk`), and the external JSON library
(`ser`/`par` for `JSON.stringify`/`JSON.parse` of entry lists,
`sv` for `JSON.stringify` of an `EncryptedVault`) are explicit
parameters.  `none` in a result means the proof-of-work search diverged. -/

structure VaultEntry where
  id : String
  site : String
  username : String
  password : String
  notes : Option String
  createdAt : String
  updatedAt : String
deriving DecidableEq

/-- The per-entry validation of `saveVault` (part_010 lines 183-187):
`!entry.site || !entry.username || !entry.password` (the empty string is
the only falsy string). -/
def badEntry (e : VaultEntry) : Bool :=
  e.site = "" || e.username = "" || e.password = ""

structure SaveResult where
  success : Bool
  message : String
  proofStored : Option Bool
  blockIndex : Option Nat
deriving DecidableEq

/-- `saveVault` (part_010 lines 165-217): validate, encrypt, persist the
blob, then record the ledger proof.  Note the returned `success` is
hard-coded `true` once the blob upsert went through — the outcome of
`storeVaultProof` is only copied into `proofStored`
(`blockchainProof.stored` in the source). -/
def saveVault (A : AEAD) (H : String → String) (sv : EncryptedVault → String)
    (ser : List VaultEntry → String) (fuel : Nat) (salt iv : String)
    (blobOk ledgerOk : Bool) (now : String) (masterKey : String)
    (entries : List VaultEntry) (st : VaultState) : Option (SaveResult × VaultState) :=
  if jsLen masterKey < 8 then
    some ({ success := false,
            message := "Failed to save vault: Master password must be at least 8 characters",
            proofStored := none, blockIndex := none }, st)
  else if entries.any badEntry then
    some ({ success := false,
            message := "Failed to save vault: Each entry must have site, username, and password",
            proofStored := none, blockIndex := none }, st)
  else
    let encrypted := encryptData A salt iv (ser entries) masterKey
    if blobOk then
      let st1 : VaultState := { st with row := some (saveVaultToSupabase encrypted) }
      match storeVaultProof H fuel ledgerOk now st1 (sv encrypted) with
      | none => none
      | some (proofResult, st2) =>
        some ({ success := true, message := "Vault saved successfully",
                proofStored := some proofResult.success,
                blockIndex := proofResult.block.map Block.index }, st2)
    else
      some ({ success := false, message := "Failed to save vault: Supabase error",
              proofStored := none, blockIndex := none }, st)

structure BlockchainVerification where
  verified : Bool
  blockIndex : Option Nat
  chainValid : Bool
deriving DecidableEq

structure LoadResult where
  success : Bool
  entries : List VaultEntry
  message : String
  blockchainVerification : Option BlockchainVerification
deriving DecidableEq

/-- `loadVault` (part_010 lines 222-289): fetch the row (no row is a
successful empty vault), verify the ledger proof (recorded only as
flags), then decrypt and parse.  A decryption failure is surfaced as
`Invalid master password`; a JSON parse failure falls into the generic
catch branch. -/
def loadVault (A : AEAD) (H : String → String) (sv : EncryptedVault → String)
    (par : String → Option (List VaultEntry)) (st : VaultState) (masterKey : String) :
    LoadResult :=
  match loadVaultFromSupabase st.row with
  | none =>
    { success := true, entries := [],
      message := "No vault found, starting with empty vault",
      blockchainVerification := none }
  | some encrypted =>
    let verification := verifyVaultProof H st.chain (sv encrypted)
    match decryptData A encrypted masterKey with
    | none =>
      { success := false, entries := [], message := "Invalid master password",
        blockchainVerification := none }
    | some decryptedData =>
      match par decryptedData with
      | none =>
        { success := false, entries := [],
          message := "Failed to load vault: Unknown error",
          blockchainVerification := none }
      | some entries =>
        { success := true, entries := entries,
          message := "Vault loaded successfully (" ++ natStr entries.length ++ " entries)",
          blockchainVerification := some
            { verified := verification.verified,
              blockIndex := verification.block.map Block.index,
              chainValid := verification.chainValid } }

structure AddResult where
  success : Bool
  entry : Option VaultEntry
  message : String
deriving DecidableEq

/-- The entry fields passed to `addVaultEntry` (id and timestamps are
generated inside). -/
structure NewEntryInput where
  site : String
  username : String
  password : String
  notes : Option String
deriving DecidableEq

/-- `addVaultEntry` (part_010 lines 294-347): load, append a fresh entry,
save the whole list back.  A failed load (whose `entries` is always `[]`
and whose message differs from the empty-vault message) returns without
saving. -/
def addVaultEntry (A : AEAD) (H : String → String) (sv : EncryptedVault → String)
    (ser : List VaultEntry → String) (par : String → Option (List VaultEntry))
    (fuel : Nat) (salt iv : String) (blobOk ledgerOk : Bool) (now uuid : String)
    (masterKey : String) (input : NewEntryInput) (st : VaultState) :
    Option (AddResult × VaultState) :=
  let loadResult := loadVault A H sv par st masterKey
  if loadResult.success = false ∧ loadResult.entries = [] ∧
      loadResult.message ≠ "No vault found, starting with empty vault" then
    some ({ success := false, entry := none, message := loadResult.message }, st)
  else
    let newEntry : VaultEntry :=
      { id := uuid, site := input.site, username := input.username,
        password := input.password, notes := input.notes,
        createdAt := now, updatedAt := now }
    let entries := loadResult.entries ++ [newEntry]
    match saveVault A H sv ser fuel salt iv blobOk ledgerOk now masterKey entries st with
    | none => none
    | some (saveResult, st') =>
      if saveResult.success then
        some ({ success := true, entry := some newEntry,
                message := "Entry added successfully" }, st')
      else
        some ({ success := false, entry := none, message := saveResult.message }, st')

/-- The `Partial<Omit<VaultEntry, 'id' | 'createdAt'>>` update object of
`updateVaultEntry`. -/
structure EntryUpdates where
  site : Option String
  username : Option String
  password : Option String
  notes : Option (Option String)
deriving DecidableEq

/-- The `{ ...entries[entryIndex], ...updates, updatedAt: ... }` spread of
`updateVaultEntry` (part_010 lines 385-389). -/
def applyUpdates (e : VaultEntry) (upd : EntryUpdates) (now : String) : VaultEntry :=
  { id := e.id,
    site := upd.site.getD e.site,
    username := upd.username.getD e.username,
    password := upd.password.getD e.password,
    notes := upd.notes.getD e.notes,
    createdAt := e.createdAt,
    updatedAt := now }

/-- `updateVaultEntry` (part_010 lines 352-414): load, locate the entry by
id, apply the updates, save the whole list back.  A failed load returns
without saving. -/
def updateVaultEntry (A : AEAD) (H : String → String) (sv : EncryptedVault → String)
    (ser : List VaultEntry → String) (par : String → Option (List VaultEntry))
    (fuel : Nat) (salt iv : String) (blobOk ledgerOk : Bool) (now : String)
    (masterKey entryId : String) (upd : EntryUpdates) (st : VaultState) :
    Option (AddResult × VaultState) :=
  let loadResult := loadVault A H sv par st masterKey
  if loadResult.success = false then
    some ({ success := false, entry := none, message := loadResult.message }, st)
  else
    match loadResult.entries.findIdx? (fun e => e.id = entryId) with
    | none => some ({ success := false, entry := none, message := "Entry not found" }, st)
    | some entryIndex =>
      match loadResult.entries[entryIndex]? with
      | none => some ({ success := false, entry := none, message := "Entry not found" }, st)
      | some old =>
        let updatedEntry := applyUpdates old upd now
        let entries := loadResult.entries.set entryIndex updatedEntry
        match saveVault A H sv ser fuel salt iv blobOk ledgerOk now masterKey entries st with
        | none => none
        | some (saveResult, st') =>
          if saveResult.success then
            some ({ success := true, entry := some updatedEntry,
                    message := "Entry updated successfully" }, st')
          else
            some ({ success := false, entry := none, message := saveResult.message }, st')

structure DeleteResult where
  success : Bool
  message : String
deriving DecidableEq

/-- `deleteVaultEntry` (part_010 lines 419-471): load, splice the entry
out by id, save the whole list back.  A failed load returns without
saving. -/
def deleteVaultEntry (A : AEAD) (H : String → String) (sv : EncryptedVault → String)
    (ser : List VaultEntry → String) (par : String → Option (List VaultEntry))
    (fuel : Nat) (salt iv : String) (blobOk ledgerOk : Bool) (now : String)
    (masterKey entryId : String) (st : VaultState) : Option (DeleteResult × VaultState) :=
  let loadResult := loadVault A H sv par st masterKey
  if loadResult.success = false then
    some ({ success := false, message := loadResult.message }, st)
  else
    match loadResult.entries.findIdx? (fun e => e.id = entryId) with
    | none => some ({ success := false, message := "Entry not found" }, st)
    | some entryIndex =>
      let entries := loadResult.entries.eraseIdx entryIndex
      match saveVault A H sv ser fuel salt iv blobOk ledgerOk now masterKey entries st with
      | none => none
      | some (saveResult, st') =>
        if saveResult.success then
          some ({ success := true, message := "Entry deleted successfully" }, st')
        else
          some ({ success := false, message := saveResult.message }, st')

/-! ### Helper lemmas -/

theorem jsTake_append_jsDrop (s : String) (n : Nat) : jsTake s n ++ jsDrop s n = s := by
  apply string_data_inj
  show (String.mk (s.data.take n) ++ String.mk (s.data.drop n)).data = s.data
  rw [data_append]
  exact List.take_append_drop n s.data

/-- The row written by `saveVaultToSupabase` reconstructs to the original
`EncryptedVault` when loaded back, provided its version is 1 (every blob
`encryptData` produces has version 1). -/
theorem loadVaultFromSupabase_roundtrip (v : EncryptedVault) (hv : v.version = 1) :
    loadVaultFromSupabase (some (saveVaultToSupabase v)) = some v := by
  unfold loadVaultFromSupabase saveVaultToSupabase
  simp only [Option.map_some']
  congr 1
  cases v with
  | mk data iv salt version =>
    simp only at hv
    simp [jsTake_append_jsDrop, hv]

/-- Decrypting a blob produced by `encryptData` reduces to one AEAD
decryption call on the original ciphertext and tag. -/
theorem decryptData_encryptData_eq (A : AEAD) (salt iv x p q : String) :
    decryptData A (encryptData A salt iv x p) q =
      A.aeadDec (A.pbkdf2 q salt) iv (A.aeadEnc (A.pbkdf2 p salt) iv x).1
        (A.aeadEnc (A.pbkdf2 p salt) iv x).2 := by
  unfold decryptData encryptData
  have h32 := A.tagLen (A.pbkdf2 p salt) iv x
  have hn : jsLen ((A.aeadEnc (A.pbkdf2 p salt) iv x).1 ++
      (A.aeadEnc (A.pbkdf2 p salt) iv x).2) - 32 =
      jsLen (A.aeadEnc (A.pbkdf2 p salt) iv x).1 := by
    rw [jsLen_append, h32]
    omega
  simp only [hn, jsTake_len_append, jsDrop_len_append]

theorem list_find?_append_none {α : Type} (p : α → Bool) (l1 l2 : List α)
    (h : l1.find? p = none) : (l1 ++ l2).find? p = l2.find? p := by
  induction l1 with
  | nil => rfl
  | cons a l ih =>
    cases hp : p a with
    | true => simp [List.find?_cons, hp] at h
    | false =>
      simp only [List.cons_append, List.find?_cons, hp] at h ⊢
      exact ih h

/-- A successful `storeVaultProof` leaves the data hash findable in the
resulting chain (either the pre-existing block or the freshly mined one). -/
theorem storeVaultProof_found (H : String → String) (fuel : Nat) (ledgerOk : Bool)
    (now : String) (st : VaultState) (d : String) (pr : ProofResult) (st2 : VaultState)
    (h : storeVaultProof H fuel ledgerOk now st d = some (pr, st2))
    (hs : pr.success = true) :
    ∃ b, findBlockByDataHash st2.chain (H d) = some b := by
  unfold storeVaultProof at h
  cases hf : findBlockByDataHash st.chain (H d) with
  | some b =>
    simp only [hf] at h
    obtain ⟨hpr, hst⟩ := Prod.mk.injEq .. ▸ Option.some.injEq .. ▸ h
    exact ⟨b, hst ▸ hf⟩
  | none =>
    simp only [hf] at h
    unfold addBlock at h
    cases hl : st.chain.chain.getLast? with
    | none =>
      simp only [hl] at h
      obtain ⟨hpr, hst⟩ := Prod.mk.injEq .. ▸ Option.some.injEq .. ▸ h
      rw [← hpr] at hs
      simp at hs
    | some prev =>
      simp only [hl] at h
      unfold mineBlock at h
      cases hm : mineAux H (zerosTarget st.chain.difficulty) (prev.index + 1) now (H d)
          prev.hash fuel 0 "" with
      | none => simp [hm] at h
      | some pa =>
        simp only [hm, Option.map_some'] at h
        obtain ⟨hpr, hst⟩ := Prod.mk.injEq .. ▸ Option.some.injEq .. ▸ h
        refine ⟨{ index := prev.index + 1, timestamp := now, dataHash := H d,
                  previousHash := prev.hash, nonce := pa.1, hash := pa.2 }, ?_⟩
        rw [← hst]
        unfold findBlockByDataHash
        simp only
        rw [list_find?_append_none _ _ _ hf]
        simp [List.find?_cons]

/-- Decryption under any passphrase other than the one used to encrypt
fails the tag check. -/
theorem decryptData_wrongPassphrase (A : AEAD) (salt iv x p1 p2 : String)
    (hne : p1 ≠ p2) : decryptData A (encryptData A salt iv x p1) p2 = none := by
  rw [decryptData_encryptData_eq]
  exact A.wrongKey _ _ _ _ (fun h => hne (A.kdfInj _ _ _ h))

/-! ### Concrete states used by witnesses and counterexamples -/

def chainlessBc : Blockchain := { chain := [], difficulty := 2 }

def emptyChainState : VaultState :=
  { row := none, chain := chainlessBc, durableChain := none }

/-- C3: for distinct passphrases, decrypting an encryption under the other
passphrase fails with a `DecryptionError` (modelled as `none`), and
`loadVault` surfaces this as the single conflated message
`Invalid master password`. -/
theorem decrypt_wrongPassphrase_fails (A : AEAD) (H : String → String)
    (sv : EncryptedVault → String) (par : String → Option (List VaultEntry))
    (salt iv x p1 p2 : String) (bc : Blockchain) (dc : Option Blockchain)
    (hne : p1 ≠ p2) :
    decryptData A (encryptData A salt iv x p1) p2 = none ∧
    loadVault A H sv par
      { row := some (saveVaultToSupabase (encryptData A salt iv x p1)),
        chain := bc, durableChain := dc } p2 =
      { success := false, entries := [], message := "Invalid master password",
        blockchainVerification := none } := by
  have hdec := decryptData_wrongPassphrase A salt iv x p1 p2 hne
  refine ⟨hdec, ?_⟩
  unfold loadVault
  dsimp only
  rw [loadVaultFromSupabase_roundtrip _ rfl]
  dsimp only
  rw [hdec]

/-- Witness for C3 at concrete distinct passphrases. -/
theorem decrypt_wrongPassphrase_fails_witness :
    "aaaaaaaa" ≠ "bbbbbbbb" ∧
    (decryptData idealAEAD (encryptData idealAEAD "s" "i" "x" "aaaaaaaa") "bbbbbbbb" = none ∧
     loadVault idealAEAD (fun s => s) (fun _ => "SV") (fun _ => some [])
       { row := some (saveVaultToSupabase (encryptData idealAEAD "s" "i" "x" "aaaaaaaa")),
         chain := chainlessBc, durableChain := none } "bbbbbbbb" =
       { success := false, entries := [], message := "Invalid master password",
         blockchainVerification := none }) :=
  ⟨by decide,
   decrypt_wrongPassphrase_fails idealAEAD (fun s => s) (fun _ => "SV") (fun _ => some [])
     "s" "i" "x" "aaaaaaaa" "bbbbbbbb" chainlessBc none (by decide)⟩

/-- C5 (amended): on an invalid chain, `verifyVaultProof` short-circuits —
it reports `verified := false` and `block := none` without looking the
queried hash up, so `found` is not reported independently of
`chainValid`. -/
theorem verifyVaultProof_invalidChain_shortCircuits (H : String → String)
    (bc : Blockchain) (d : String) (h : verifyBlockchain H bc = false) :
    verifyVaultProof H bc d =
      { verified := false, block := none, message := "Blockchain integrity compromised",
        chainValid := false } := by
  simp [verifyVaultProof, h]

/-- Witness for the amended C5 on a concrete invalid chain. -/
theorem verifyVaultProof_invalidChain_shortCircuits_witness :
    verifyBlockchain (fun s => s) chainlessBc = false ∧
    verifyVaultProof (fun s => s) chainlessBc "v" =
      { verified := false, block := none, message := "Blockchain integrity compromised",
        chainValid := false } :=
  ⟨by decide,
   verifyVaultProof_invalidChain_shortCircuits (fun s => s) chainlessBc "v" (by decide)⟩

/-- A tampered two-block chain that still contains a block whose
`dataHash` is the hash of `"v"` under the identity hash model: block 1's
stored `hash` does not match its recomputed hash. -/
def tamperedBcWithV : Blockchain :=
  { chain :=
      [ { index := 0, timestamp := "T", dataHash := "Genesis Block", previousHash := "0",
          nonce := 0, hash := "GH" },
        { index := 1, timestamp := "t", dataHash := "v", previousHash := "GH",
          nonce := 0, hash := "bad" } ],
    difficulty := 0 }

/-- Counterexample to C5 as stated: the queried `dataHash` is present in
the tampered chain, yet `verifyVaultProof` reports `verified = false`
and `block = none` — the found flag is not reported alongside
`chainValid == false`. -/
theorem verifyVaultProof_found_suppressed_cex :
    findBlockByDataHash tamperedBcWithV ((fun s => s) "v") =
      some { index := 1, timestamp := "t", dataHash := "v", previousHash := "GH",
             nonce := 0, hash := "bad" } ∧
    verifyBlockchain (fun s => s) tamperedBcWithV = false ∧
    verifyVaultProof (fun s => s) tamperedBcWithV "v" =
      { verified := false, block := none, message := "Blockchain integrity compromised",
        chainValid := false } := by
  refine ⟨by decide, by decide, ?_⟩
  decide

/-- C6: storing a proof whose `dataHash` already occurs in some block of
the chain is idempotent — the state (hence the chain and its length) is
unchanged, the returned block is the existing block itself, and the
operation reports success. -/
theorem storeVaultProof_idempotent (H : String → String) (fuel : Nat) (ledgerOk : Bool)
    (now : String) (st : VaultState) (d : String) (b : Block)
    (hfind : findBlockByDataHash st.chain (H d) = some b) :
    storeVaultProof H fuel ledgerOk now st d =
      some ({ success := true, block := some b,
              message := "Proof already exists at block " ++ natStr b.index }, st) := by
  simp [storeVaultProof, hfind]

/-- A valid-looking state whose chain already contains a block attesting
to data hash `"v"`. -/
def stateWithV : VaultState :=
  { row := none, chain := tamperedBcWithV, durableChain := none }

/-- Witness for C6 on a concrete chain that contains the queried hash. -/
theorem storeVaultProof_idempotent_witness :
    findBlockByDataHash stateWithV.chain ((fun s => s) "v") =
      some { index := 1, timestamp := "t", dataHash := "v", previousHash := "GH",
             nonce := 0, hash := "bad" } ∧
    storeVaultProof (fun s => s) 0 true "T" stateWithV "v" =
      some ({ success := true,
              block := some { index := 1, timestamp := "t", dataHash := "v",
                              previousHash := "GH", nonce := 0, hash := "bad" },
              message := "Proof already exists at block " ++
                natStr ({ index := 1, timestamp := "t", dataHash := "v",
                          previousHash := "GH", nonce := 0, hash := "bad" } : Block).index },
            stateWithV) :=
  ⟨by decide,
   storeVaultProof_idempotent (fun s => s) 0 true "T" stateWithV "v"
     { index := 1, timestamp := "t", dataHash := "v", previousHash := "GH",
       nonce := 0, hash := "bad" } (by decide)⟩

/-- C7: a passphrase shorter than 8 characters, or any entry with an empty
site, username or password, makes `saveVault` fail before any encryption,
blob persistence or ledger append: the state is returned unchanged, no
proof is recorded, and the result does not depend on the randomness,
fuel or persistence outcomes at all. -/
theorem saveVault_validates_before_effects (A : AEAD) (H : String → String)
    (sv : EncryptedVault → String) (ser : List VaultEntry → String) (fuel : Nat)
    (salt iv : String) (blobOk ledgerOk : Bool) (now masterKey : String)
    (entries : List VaultEntry) (st : VaultState)
    (h : jsLen masterKey < 8 ∨ entries.any badEntry = true) :
    (∃ r, saveVault A H sv ser fuel salt iv blobOk ledgerOk now masterKey entries st =
        some (r, st) ∧ r.success = false ∧ r.proofStored = none) ∧
    (∀ fuel' salt' iv' blobOk' ledgerOk',
      saveVault A H sv ser fuel' salt' iv' blobOk' ledgerOk' now masterKey entries st =
        saveVault A H sv ser fuel salt iv blobOk ledgerOk now masterKey entries st) := by
  by_cases hlt : jsLen masterKey < 8
  · have heq : saveVault A H sv ser fuel salt iv blobOk ledgerOk now masterKey entries st =
        some (({ success := false,
                 message := "Failed to save vault: Master password must be at least 8 characters",
                 proofStored := none, blockIndex := none } : SaveResult), st) := by
      simp [saveVault, hlt]
    exact ⟨⟨_, heq, rfl, rfl⟩,
      fun fuel' salt' iv' blobOk' ledgerOk' => by simp [saveVault, hlt]⟩
  · have hany : entries.any badEntry = true := by
      rcases h with h | h
      · exact absurd h hlt
      · exact h
    have heq : saveVault A H sv ser fuel salt iv blobOk ledgerOk now masterKey entries st =
        some (({ success := false,
                 message := "Failed to save vault: Each entry must have site, username, and password",
                 proofStored := none, blockIndex := none } : SaveResult), st) := by
      simp [saveVault, hlt, hany]
    exact ⟨⟨_, heq, rfl, rfl⟩,
      fun fuel' salt' iv' blobOk' ledgerOk' => by simp [saveVault, hlt, hany]⟩

/-- Witness for C7 with a 5-character passphrase. -/
theorem saveVault_validates_before_effects_witness :
    jsLen "short" < 8 ∧
    (∃ r, saveVault idealAEAD (fun s => s) (fun _ => "SV") (fun _ => "SER") 0 "s" "i"
        true true "T" "short" [] emptyChainState = some (r, emptyChainState) ∧
      r.success = false ∧ r.proofStored = none) :=
  ⟨by decide,
   (saveVault_validates_before_effects idealAEAD (fun s => s) (fun _ => "SV")
     (fun _ => "SER") 0 "s" "i" true true "T" "short" [] emptyChainState
     (Or.inl (by decide))).1⟩

/-- C8: whenever the stored blob decrypts and parses, `loadVault` succeeds
and returns the entries, for every ledger state whatsoever — the outcome
of ledger verification is only recorded in the
`blockchainVerification` flags, never a hard failure. -/
theorem loadVault_success_despite_verification (A : AEAD) (H : String → String)
    (sv : EncryptedVault → String) (par : String → Option (List VaultEntry))
    (st : VaultState) (masterKey : String) (encrypted : EncryptedVault)
    (plain : String) (L : List VaultEntry)
    (hrow : loadVaultFromSupabase st.row = some encrypted)
    (hdec : decryptData A encrypted masterKey = some plain)
    (hpar : par plain = some L) :
    loadVault A H sv par st masterKey =
      { success := true, entries := L,
        message := "Vault loaded successfully (" ++ natStr L.length ++ " entries)",
        blockchainVerification := some
          { verified := (verifyVaultProof H st.chain (sv encrypted)).verified,
            blockIndex := (verifyVaultProof H st.chain (sv encrypted)).block.map Block.index,
            chainValid := (verifyVaultProof H st.chain (sv encrypted)).chainValid } } := by
  simp [loadVault, hrow, hdec, hpar]

def encBlobW8 : EncryptedVault := encryptData idealAEAD "s" "i" "PT" "aaaaaaaa"

def storedBadChainState : VaultState :=
  { row := some (saveVaultToSupabase encBlobW8), chain := chainlessBc, durableChain := none }

def parOfPT : String → Option (List VaultEntry) :=
  fun s => if s = "PT" then some [] else none

/-- Witness for C8 on a state whose chain is invalid: the load still
succeeds and `chainValid` is only a flag. -/
theorem loadVault_success_despite_verification_witness :
    (verifyVaultProof (fun s => s) storedBadChainState.chain
        ((fun _ => "SV") encBlobW8)).chainValid = false ∧
    loadVault idealAEAD (fun s => s) (fun _ => "SV") parOfPT storedBadChainState "aaaaaaaa" =
      { success := true, entries := [],
        message := "Vault loaded successfully (" ++ natStr ([] : List VaultEntry).length ++
          " entries)",
        blockchainVerification := some
          { verified := (verifyVaultProof (fun s => s) storedBadChainState.chain
              ((fun _ => "SV") encBlobW8)).verified,
            blockIndex := (verifyVaultProof (fun s => s) storedBadChainState.chain
              ((fun _ => "SV") encBlobW8)).block.map Block.index,
            chainValid := (verifyVaultProof (fun s => s) storedBadChainState.chain
              ((fun _ => "SV") encBlobW8)).chainValid } } :=
  ⟨by decide,
   loadVault_success_despite_verification idealAEAD (fun s => s) (fun _ => "SV") parOfPT
     storedBadChainState "aaaaaaaa" encBlobW8 "PT" [] (by decide) (by decide) (by decide)⟩

/-- A failed `loadVault` always carries an empty entry list and one of the
two failure messages, both distinct from the empty-vault message. -/
theorem loadVault_fail_shape (A : AEAD) (H : String → String)
    (sv : EncryptedVault → String) (par : String → Option (List VaultEntry))
    (st : VaultState) (mk' : String)
    (h : (loadVault A H sv par st mk').success = false) :
    (loadVault A H sv par st mk').entries = [] ∧
    ((loadVault A H sv par st mk').message = "Invalid master password" ∨
     (loadVault A H sv par st mk').message = "Failed to load vault: Unknown error") := by
  rcases hr : loadVaultFromSupabase st.row with _ | enc
  · simp [loadVault, hr] at h
  · rcases hd : decryptData A enc mk' with _ | plain
    · simp only [loadVault, hr, hd]
      exact ⟨trivial, Or.inl trivial⟩
    · rcases hp : par plain with _ | L
      · simp only [loadVault, hr, hd, hp]
        exact ⟨trivial, Or.inr trivial⟩
      · simp [loadVault, hr, hd, hp] at h

/-- C9: when the load step inside add/update/delete fails, each of the
three mutating operations returns failure with the load's message and
leaves the state (persisted blob, in-memory chain, durable chain)
completely unchanged — `saveVault` is never reached. -/
theorem mutations_fail_without_load (A : AEAD) (H : String → String)
    (sv : EncryptedVault → String) (ser : List VaultEntry → String)
    (par : String → Option (List VaultEntry)) (fuel : Nat) (salt iv : String)
    (blobOk ledgerOk : Bool) (now uuid masterKey entryId : String)
    (input : NewEntryInput) (upd : EntryUpdates) (st : VaultState)
    (h : (loadVault A H sv par st masterKey).success = false) :
    addVaultEntry A H sv ser par fuel salt iv blobOk ledgerOk now uuid masterKey input st =
      some ({ success := false, entry := none,
              message := (loadVault A H sv par st masterKey).message }, st) ∧
    updateVaultEntry A H sv ser par fuel salt iv blobOk ledgerOk now masterKey entryId
        upd st =
      some ({ success := false, entry := none,
              message := (loadVault A H sv par st masterKey).message }, st) ∧
    deleteVaultEntry A H sv ser par fuel salt iv blobOk ledgerOk now masterKey entryId st =
      some ({ success := false,
              message := (loadVault A H sv par st masterKey).message }, st) := by
  obtain ⟨hent, hmsg⟩ := loadVault_fail_shape A H sv par st masterKey h
  have hne : (loadVault A H sv par st masterKey).message ≠
      "No vault found, starting with empty vault" := by
    rcases hmsg with h1 | h1 <;> rw [h1] <;> decide
  refine ⟨?_, ?_, ?_⟩
  · simp [addVaultEntry, h, hent, hne]
  · simp [updateVaultEntry, h]
  · simp [deleteVaultEntry, h]

def badRowState : VaultState :=
  { row := some { encrypted_data := "", iv := "", auth_tag := "", blockchain_hash := "" },
    chain := chainlessBc, durableChain := none }

/-- Witness for C9: a stored blob that fails to decrypt makes all three
mutating operations fail with the state untouched. -/
theorem mutations_fail_without_load_witness :
    (loadVault idealAEAD (fun s => s) (fun _ => "SV") (fun _ => some []) badRowState
      "aaaaaaaa").success = false ∧
    (addVaultEntry idealAEAD (fun s => s) (fun _ => "SV") (fun _ => "SER")
        (fun _ => some []) 0 "s" "i" true true "T" "u" "aaaaaaaa"
        { site := "x", username := "y", password := "z", notes := none } badRowState =
      some ({ success := false, entry := none,
              message := (loadVault idealAEAD (fun s => s) (fun _ => "SV")
                (fun _ => some []) badRowState "aaaaaaaa").message }, badRowState) ∧
     updateVaultEntry idealAEAD (fun s => s) (fun _ => "SV") (fun _ => "SER")
        (fun _ => some []) 0 "s" "i" true true "T" "aaaaaaaa" "e"
        { site := none, username := none, password := none, notes := none } badRowState =
      some ({ success := false, entry := none,
              message := (loadVault idealAEAD (fun s => s) (fun _ => "SV")
                (fun _ => some []) badRowState "aaaaaaaa").message }, badRowState) ∧
     deleteVaultEntry idealAEAD (fun s => s) (fun _ => "SV") (fun _ => "SER")
        (fun _ => some []) 0 "s" "i" true true "T" "aaaaaaaa" "e" badRowState =
      some ({ success := false,
              message := (loadVault idealAEAD (fun s => s) (fun _ => "SV")
                (fun _ => some []) badRowState "aaaaaaaa").message }, badRowState)) :=
  ⟨by decide,
   mutations_fail_without_load idealAEAD (fun s => s) (fun _ => "SV") (fun _ => "SER")
     (fun _ => some []) 0 "s" "i" true true "T" "u" "aaaaaaaa" "e"
     { site := "x", username := "y", password := "z", notes := none }
     { site := none, username := none, password := none, notes := none } badRowState
     (by decide)⟩

/-- Counterexample to C1 as stated: the blob upsert succeeds (the row is
written), the subsequent ledger append fails (`storeVaultProof` reports
`success = false`, here because the loaded chain is empty and
`getLatestBlock` throws), yet `saveVault` returns `success = true` — the
append failure is only visible in `proofStored`. -/
theorem saveVault_ledgerFail_reports_success_cex :
    saveVault idealAEAD (fun s => s) (fun _ => "SV") (fun _ => "SER") 0 "s" "i" true true
      "T" "aaaaaaaa" [] emptyChainState =
    some ({ success := true, message := "Vault saved successfully",
            proofStored := some false, blockIndex := none },
          { row := some (saveVaultToSupabase (encryptData idealAEAD "s" "i" "SER" "aaaaaaaa")),
            chain := chainlessBc, durableChain := none }) := by
  decide

/-- C1 (amended): once validation passes and the blob upsert succeeds,
`saveVault` returns `success = true` regardless of the outcome of the
ledger append; a failed `storeVaultProof` is reported only through
`proofStored = some false` (`blockchainProof.stored`), so the top-level
success flag cannot be used to detect it and retry. -/
theorem saveVault_success_ignores_proofResult (A : AEAD) (H : String → String)
    (sv : EncryptedVault → String) (ser : List VaultEntry → String) (fuel : Nat)
    (salt iv : String) (ledgerOk : Bool) (now masterKey : String)
    (entries : List VaultEntry) (st : VaultState) (proofResult : ProofResult)
    (st2 : VaultState)
    (hmk : ¬ jsLen masterKey < 8) (hent : entries.any badEntry = false)
    (hproof : storeVaultProof H fuel ledgerOk now
        { st with row := some (saveVaultToSupabase
            (encryptData A salt iv (ser entries) masterKey)) }
        (sv (encryptData A salt iv (ser entries) masterKey)) = some (proofResult, st2)) :
    saveVault A H sv ser fuel salt iv true ledgerOk now masterKey entries st =
      some ({ success := true, message := "Vault saved successfully",
              proofStored := some proofResult.success,
              blockIndex := proofResult.block.map Block.index }, st2) := by
  simp [saveVault, hmk, hent, hproof]

/-- The `ProofResult` a `storeVaultProof` on an empty chain produces. -/
def noChainProofResult : ProofResult :=
  { success := false, block := none,
    message := "Failed to store proof: Blockchain not initialized" }

/-- The state after the blob upsert of the concrete failing-ledger run. -/
def rowWrittenState : VaultState :=
  { row := some (saveVaultToSupabase (encryptData idealAEAD "s" "i" "SER" "aaaaaaaa")),
    chain := chainlessBc, durableChain := none }

/-- Witness for the amended C1: exactly the counterexample run — the
ledger append fails yet the save reports success. -/
theorem saveVault_success_ignores_proofResult_witness :
    noChainProofResult.success = false ∧
    saveVault idealAEAD (fun s => s) (fun _ => "SV") (fun _ => "SER") 0 "s" "i" true true
        "T" "aaaaaaaa" [] emptyChainState =
      some ({ success := true, message := "Vault saved successfully",
              proofStored := some noChainProofResult.success,
              blockIndex := noChainProofResult.block.map Block.index },
            rowWrittenState) :=
  ⟨rfl,
   saveVault_success_ignores_proofResult idealAEAD (fun s => s) (fun _ => "SV")
     (fun _ => "SER") 0 "s" "i" true "T" "aaaaaaaa" [] emptyChainState
     noChainProofResult rowWrittenState (by decide) (by decide) (by decide)⟩

/-- C10: the supabase row round-trips — the blob `encryptData` produced is
reconstructed exactly by `loadVaultFromSupabase` (auth tag re-attached as
the last 32 hex chars of `data`, salt recovered from the
`blockchain_hash` column, version 1) — and after a successful save the
ledger verification of the same serialized blob reports the proof as
found. -/
theorem supabase_roundtrip_and_proof_found (A : AEAD) (H : String → String)
    (sv : EncryptedVault → String) (fuel : Nat) (ledgerOk : Bool) (now : String)
    (st : VaultState) (proofResult : ProofResult) (st2 : VaultState)
    (salt iv m p : String)
    (hsave : storeVaultProof H fuel ledgerOk now st
        (sv (encryptData A salt iv m p)) = some (proofResult, st2))
    (hps : proofResult.success = true)
    (hvalid : verifyBlockchain H st2.chain = true) :
    loadVaultFromSupabase (some (saveVaultToSupabase (encryptData A salt iv m p))) =
      some (encryptData A salt iv m p) ∧
    (verifyVaultProof H st2.chain (sv (encryptData A salt iv m p))).verified = true := by
  refine ⟨loadVaultFromSupabase_roundtrip _ rfl, ?_⟩
  obtain ⟨b, hb⟩ := storeVaultProof_found H fuel ledgerOk now st _ proofResult st2 hsave hps
  simp [verifyVaultProof, hvalid, hb]

def constHash : String → String := fun _ => "00"

def genesisState : VaultState :=
  { row := none, chain := { chain := [createGenesisBlock constHash "G"], difficulty := 2 },
    durableChain := none }

def minedChain : Blockchain :=
  { chain := [createGenesisBlock constHash "G",
      { index := 1, timestamp := "T", dataHash := "00", previousHash := "00",
        nonce := 1, hash := "00" }], difficulty := 2 }

def minedState : VaultState :=
  { row := none, chain := minedChain, durableChain := some minedChain }

/-- Witness for C10: a concrete save (one mined block over the genesis
block) after which the proof verifies as found on the valid chain. -/
theorem supabase_roundtrip_and_proof_found_witness :
    storeVaultProof constHash 2 true "T" genesisState
        ((fun _ => "SV") (encryptData idealAEAD "s" "i" "M" "aaaaaaaa")) =
      some ({ success := true,
              block := some { index := 1, timestamp := "T", dataHash := "00",
                              previousHash := "00", nonce := 1, hash := "00" },
              message := "Proof stored successfully at block 1" }, minedState) ∧
    (loadVaultFromSupabase (some (saveVaultToSupabase
        (encryptData idealAEAD "s" "i" "M" "aaaaaaaa"))) =
      some (encryptData idealAEAD "s" "i" "M" "aaaaaaaa") ∧
    (verifyVaultProof constHash minedState.chain
        ((fun _ => "SV") (encryptData idealAEAD "s" "i" "M" "aaaaaaaa"))).verified = true) :=
  ⟨by decide,
   supabase_roundtrip_and_proof_found idealAEAD constHash (fun _ => "SV") 2 true "T"
     genesisState
     { success := true,
       block := some { index := 1, timestamp := "T", dataHash := "00",
                       previousHash := "00", nonce := 1, hash := "00" },
       message := "Proof stored successfully at block 1" }
     minedState "s" "i" "M" "aaaaaaaa" (by decide) rfl (by decide)⟩

/-! ### Tamper detection (C4) -/

theorem string_append_cancel_left {a b c : String} (h : a ++ b = a ++ c) : b = c := by
  apply string_data_inj
  have hd := congrArg String.data h
  rw [data_append, data_append] at hd
  exact List.append_cancel_left hd

theorem string_append_cancel_right {a b c : String} (h : a ++ c = b ++ c) : a = b := by
  apply string_data_inj
  have hd := congrArg String.data h
  rw [data_append, data_append] at hd
  exact List.append_cancel_right hd

theorem blockString_time_inj {i : Nat} {t t' d p : String} {n : Nat}
    (h : blockString i t d p n = blockString i t' d p n) : t = t' := by
  unfold blockString at h
  exact string_append_cancel_left
    (string_append_cancel_right (string_append_cancel_right (string_append_cancel_right h)))

theorem blockString_data_inj {i : Nat} {t d d' p : String} {n : Nat}
    (h : blockString i t d p n = blockString i t d' p n) : d = d' := by
  unfold blockString at h
  exact string_append_cancel_left
    (string_append_cancel_right (string_append_cancel_right h))

theorem blockString_prev_inj {i : Nat} {t d p p' : String} {n : Nat}
    (h : blockString i t d p n = blockString i t d p' n) : p = p' := by
  unfold blockString at h
  exact string_append_cancel_left (string_append_cancel_right h)

theorem blockString_nonce_inj {i : Nat} {t d p : String} {n n' : Nat}
    (h : blockString i t d p n = blockString i t d p n') : n = n' := by
  unfold blockString at h
  exact natStr_inj (string_append_cancel_left h)

/-- A mutation of a single block field (the fields C4 enumerates). -/
inductive FieldMut where
  | mutTime (t : String)
  | mutData (d : String)
  | mutPrev (p : String)
  | mutNonce (n : Nat)
  | mutHash (h : String)
deriving DecidableEq

/-- Apply the mutation, leaving every other field (and the stored hash,
unless it is the mutated field) untouched. -/
def applyMut (b : Block) : FieldMut → Block
  | .mutTime t => { b with timestamp := t }
  | .mutData d => { b with dataHash := d }
  | .mutPrev p => { b with previousHash := p }
  | .mutNonce n => { b with nonce := n }
  | .mutHash h => { b with hash := h }

/-- The mutation actually changes the field's value. -/
def mutChanges (b : Block) : FieldMut → Bool
  | .mutTime t => decide (t ≠ b.timestamp)
  | .mutData d => decide (d ≠ b.dataHash)
  | .mutPrev p => decide (p ≠ b.previousHash)
  | .mutNonce n => decide (n ≠ b.nonce)
  | .mutHash h => decide (h ≠ b.hash)

/-- Core induction for C4: in a verifying suffix, replacing the block at
any position by a changed single-field mutation of itself makes the
suffix fail verification (collision freedom of the hash assumed). -/
theorem verifyFrom_set_false (H : String → String) (hinj : ∀ s t, H s = H t → s = t)
    (difficulty : Nat) :
    ∀ (l : List Block) (prev : Block) (j : Nat) (hj : j < l.length) (m : FieldMut),
      verifyFrom H difficulty prev l = true →
      mutChanges (l.get ⟨j, hj⟩) m = true →
      verifyFrom H difficulty prev (l.set j (applyMut (l.get ⟨j, hj⟩) m)) = false := by
  intro l
  induction l with
  | nil =>
    intro prev j hj
    simp at hj
  | cons b rest ih =>
    intro prev j hj m hv hm
    simp only [verifyFrom, Bool.and_eq_true, decide_eq_true_eq] at hv
    obtain ⟨⟨⟨hb1, hb2⟩, hb3⟩, hbrest⟩ := hv
    cases j with
    | zero =>
      simp only [List.get] at hm ⊢
      simp only [List.set]
      cases m with
      | mutTime t =>
        have hne : t ≠ b.timestamp := by simpa [mutChanges] using hm
        have hkey : ¬ (b.hash =
            calculateBlockHash H b.index t b.dataHash b.previousHash b.nonce) := by
          intro hc
          rw [hb1] at hc
          exact hne (blockString_time_inj (hinj _ _ hc)).symm
        simp [verifyFrom, applyMut, hkey]
      | mutData d =>
        have hne : d ≠ b.dataHash := by simpa [mutChanges] using hm
        have hkey : ¬ (b.hash =
            calculateBlockHash H b.index b.timestamp d b.previousHash b.nonce) := by
          intro hc
          rw [hb1] at hc
          exact hne (blockString_data_inj (hinj _ _ hc)).symm
        simp [verifyFrom, applyMut, hkey]
      | mutPrev p =>
        have hne : p ≠ b.previousHash := by simpa [mutChanges] using hm
        have hkey : ¬ (p = prev.hash) := fun hc => hne (hc.trans hb2.symm)
        simp [verifyFrom, applyMut, hkey]
      | mutNonce n =>
        have hne : n ≠ b.nonce := by simpa [mutChanges] using hm
        have hkey : ¬ (b.hash =
            calculateBlockHash H b.index b.timestamp b.dataHash b.previousHash n) := by
          intro hc
          rw [hb1] at hc
          exact hne (blockString_nonce_inj (hinj _ _ hc)).symm
        simp [verifyFrom, applyMut, hkey]
      | mutHash h =>
        have hne : h ≠ b.hash := by simpa [mutChanges] using hm
        have hkey : ¬ (h =
            calculateBlockHash H b.index b.timestamp b.dataHash b.previousHash b.nonce) :=
          fun hc => hne (hc.trans hb1.symm)
        simp [verifyFrom, applyMut, hkey]
    | succ j =>
      have hj' : j < rest.length := by simpa using hj
      simp only [List.get] at hm ⊢
      simp only [List.set, verifyFrom]
      have hihx := ih b j hj' m hbrest hm
      simp only [List.get_eq_getElem] at hihx
      simp [hb1, hb2, hb3, hihx]

/-- C4 (amended): in a chain that verifies, mutating any single field
(timestamp, dataHash, previousHash, nonce, or hash) of any block at
index ≥ 1 without recomputing its hash makes `verifyBlockchain` report
`false`, assuming the hash function is collision-free.  (Index 0 — the
genesis block — is excluded: `verifyBlockchain` never re-validates it,
see the counterexample.) -/
theorem verifyBlockchain_detects_tamper (H : String → String)
    (hinj : ∀ s t, H s = H t → s = t) (bc : Blockchain)
    (hv : verifyBlockchain H bc = true) (i : Nat) (hi : i < bc.chain.length)
    (hge : 1 ≤ i) (m : FieldMut) (hm : mutChanges (bc.chain.get ⟨i, hi⟩) m = true) :
    verifyBlockchain H
      { chain := bc.chain.set i (applyMut (bc.chain.get ⟨i, hi⟩) m),
        difficulty := bc.difficulty } = false := by
  obtain ⟨chain, difficulty⟩ := bc
  simp only at hv hi hm ⊢
  cases chain with
  | nil => simp at hi
  | cons g rest =>
    obtain ⟨j, rfl⟩ : ∃ j, i = j + 1 := ⟨i - 1, by omega⟩
    simp only [verifyBlockchain, Bool.and_eq_true, decide_eq_true_eq] at hv
    obtain ⟨hg, hrest⟩ := hv
    have hj : j < rest.length := by simpa using hi
    simp only [List.get] at hm ⊢
    simp only [List.set, verifyBlockchain]
    have hx := verifyFrom_set_false H hinj difficulty rest g j hj m hrest hm
    simp only [List.get_eq_getElem] at hx
    simp [hg, hx]

def genesisOnlyBlock : Block :=
  { index := 0, timestamp := "T0", dataHash := "Genesis Block", previousHash := "0",
    nonce := 0, hash := "GH" }

def genesisOnlyBc : Blockchain := { chain := [genesisOnlyBlock], difficulty := 2 }

/-- Counterexample to C4 as stated: mutating the genesis block's
`timestamp` (a single field, without recomputing its hash) leaves
`verifyBlockchain` reporting `true` — the genesis block's own hash is
never re-validated, only its `previousHash == "0"`. -/
theorem verifyBlockchain_genesis_tamper_cex :
    verifyBlockchain (fun s => s) genesisOnlyBc = true ∧
    mutChanges genesisOnlyBlock (FieldMut.mutTime "T1") = true ∧
    verifyBlockchain (fun s => s)
      { chain := genesisOnlyBc.chain.set 0 (applyMut genesisOnlyBlock (FieldMut.mutTime "T1")),
        difficulty := genesisOnlyBc.difficulty } = true := by
  refine ⟨by decide, by decide, by decide⟩

def tamperGenesis : Block :=
  { index := 0, timestamp := "A", dataHash := "B", previousHash := "0",
    nonce := 0, hash := "GH" }

def tamperBlock1 : Block :=
  { index := 1, timestamp := "t", dataHash := "d", previousHash := "GH",
    nonce := 5, hash := "1tdGH5" }

def tamperWitnessBc : Blockchain :=
  { chain := [tamperGenesis, tamperBlock1], difficulty := 0 }

/-- Witness for the amended C4 on a concrete valid chain: tampering block
1's timestamp is detected. -/
theorem verifyBlockchain_detects_tamper_witness :
    verifyBlockchain (fun s => s) tamperWitnessBc = true ∧
    mutChanges tamperBlock1 (FieldMut.mutTime "x") = true ∧
    verifyBlockchain (fun s => s)
      { chain := tamperWitnessBc.chain.set 1 (applyMut tamperBlock1 (FieldMut.mutTime "x")),
        difficulty := tamperWitnessBc.difficulty } = false :=
  ⟨by decide, by decide,
   verifyBlockchain_detects_tamper (fun s => s) (fun _ _ h => h) tamperWitnessBc
     (by decide) 1 (by decide) (by decide) (FieldMut.mutTime "x") (by decide)⟩
